import Mathlib

/-!
Verification development for the `dmParticle` particle simulation subsystem
(header `src/particle.h` of the repository).  The public header declares the
data model (`Prototype`, handle types, callback types) and the operations
(`CreateContext`, `CreateEmitter`, `DestroyEmitter`, `StartEmitter`,
`StopEmitter`, `RestartEmitter`, `FireAndForget`, `SetGain`, `IsSpawning`,
`IsSleeping`, `Update`, `Render`); the implementation file is not part of the
sampled sources, so the operational behaviour is modelled from the
specification (`spec.md`), faithful to its words, as noted on each definition.
Machine floats (`float dt`, gain) are modelled as rationals; pointers and
resource handles as `Option`/`Nat` with `0`/`none` for null.
-/

namespace dmParticle

/-- A 3-component point (Vectormath::Aos::Point3), components as rationals. -/
abbrev Point3 := ℚ × ℚ × ℚ

/-- A quaternion (Vectormath::Aos::Quat), components as rationals. -/
abbrev Quat := ℚ × ℚ × ℚ × ℚ

/-- A 4x4 view matrix (Vectormath::Aos::Matrix4), abstracted: the spec uses it
only for camera-relative computation, which no claim touches. -/
abbrev Matrix4 := List ℚ

/-- Modelled from the spec: the deserialized emission descriptor
(`dmParticleDDF::Emitter`), whose definition (`particle_ddf.h`) is not among
the sampled sources.  Spec section 3 lists its fields read by the core:
emission rate, duration, looping flag; the per-particle configured life is the
"max particle life" the spec's reclamation bound refers to. -/
structure EmitterDDF where
  rate : ℚ
  duration : ℚ
  looping : Bool
  particleLife : ℚ
deriving DecidableEq

/-- `dmParticle::Prototype` from `src/particle.h` lines 49-64: a DDF pointer
(`m_DDF`, null modelled as `none`), a texture handle and a material handle
(handles as `Nat`, `0` = unset). -/
structure Prototype where
  m_DDF : Option EmitterDDF
  m_Texture : Nat
  m_Material : Nat
deriving DecidableEq

/-- The default constructor `Prototype()` from `src/particle.h` lines 51-56:
`m_DDF(0x0), m_Texture(0), m_Material(0)`. -/
def Prototype.init : Prototype :=
  { m_DDF := none, m_Texture := 0, m_Material := 0 }

/-- Modelled from the spec: one live particle (spec section 3, Emitter
attributes): position, velocity, age, and configured life (remaining life is
`life - age`). -/
structure Particle where
  position : Point3
  velocity : Point3
  age : ℚ
  life : ℚ
deriving DecidableEq

/-- Modelled from the spec: the explicit part of the emitter lifecycle state.
`Idle` is represented by an empty pool slot and `Sleeping` is a derived
predicate ("not spawning and no live particles", spec sections 4.2 and the
glossary), so only `Spawning` vs `Stopping` is stored. -/
inductive EmitterMode where
  | Spawning
  | Stopping
deriving DecidableEq

/-- Modelled from the spec: one running emitter instance (spec section 3):
reference to its prototype, world transform, gain in [0,1], internal clock,
fractional emission accumulator, bounded particle collection, spawn-state
flag, and the auto-destroy flag set only by `FireAndForget`. -/
structure Emitter where
  prototype : Prototype
  position : Point3
  rotation : Quat
  gain : ℚ
  timer : ℚ
  spawnAccum : ℚ
  particles : List Particle
  mode : EmitterMode
  autoDestroy : Bool
deriving DecidableEq

/-- Fallback descriptor used to read through the `Option`; a live emitter is
only ever created from a prototype whose `m_DDF` is non-null. -/
def defaultDDF : EmitterDDF :=
  { rate := 0, duration := 0, looping := false, particleLife := 0 }

/-- The emission descriptor an emitter reads through its prototype reference. -/
def Emitter.ddf (e : Emitter) : EmitterDDF :=
  e.prototype.m_DDF.getD defaultDDF

/-- Modelled from the spec (section 4.2): an emitter is spawning when it has
not been explicitly stopped and, unless looping, its configured duration has
not elapsed ("a looping emitter is always spawning; a finite-duration emitter
stops spawning once its configured duration elapses"). -/
def Emitter.spawning (e : Emitter) : Bool :=
  e.mode == EmitterMode.Spawning && (e.ddf.looping || decide (e.timer < e.ddf.duration))

/-- Modelled from the spec (glossary, section 4.2): sleeping means "not
spawning and no live particles". -/
def Emitter.sleeping (e : Emitter) : Bool :=
  !e.spawning && e.particles.isEmpty

/-- Emitter handles (`HEmitter`, a `uint32_t`); modelled as slot index + 1 so
that the reserved value 0 is never assigned to a live emitter (spec section 3
invariants; the generation tag of spec section 9 is omitted since no claim
concerns stale-handle detection). -/
abbrev HEmitter := Nat

/-- `INVALID_EMITTER = 0` from `src/particle.h` line 40. -/
def INVALID_EMITTER : HEmitter := 0

/-- Modelled from the spec (section 6, configuration surface): the recognized
numeric caps fed to `CreateContext`. -/
structure Config where
  max_emitter_count : Nat
  max_particle_count : Nat
  max_particle_buffer_count : Nat
deriving DecidableEq

/-- Modelled from the spec (sections 3 and 4.1): the context owns a
fixed-capacity table of emitter slots plus the global numeric caps. -/
structure Context where
  maxEmitterCount : Nat
  maxParticleCount : Nat
  slots : List (Option Emitter)
deriving DecidableEq

/-- Modelled from the spec: `CreateContext` allocates a pool sized from the
configuration (spec section 4.1); all slots start empty (`Idle`). -/
def CreateContext (config : Config) : Context :=
  { maxEmitterCount := config.max_emitter_count
    maxParticleCount := config.max_particle_count
    slots := List.replicate config.max_emitter_count none }

/-- Modelled from the spec (section 4.1): handle allocation picks a free slot
by scanning; `none` when the pool is at capacity. -/
def findFreeSlot : List (Option Emitter) → Option Nat
  | [] => none
  | none :: _ => some 0
  | some _ :: rest => (findFreeSlot rest).map (· + 1)

/-- Looking an emitter up by handle: handle 0 is invalid, otherwise the slot
at index `h - 1`. -/
def lookupEmitter (c : Context) (h : HEmitter) : Option Emitter :=
  if h = 0 then none else c.slots.getD (h - 1) none

/-- A fresh emitter as created by `CreateEmitter`/`FireAndForget`: clock and
accumulator at zero, no particles, state `Spawning`, full gain. -/
def newEmitter (p : Prototype) (position : Point3) (rotation : Quat)
    (autoDestroy : Bool) : Emitter :=
  { prototype := p, position := position, rotation := rotation, gain := 1
    timer := 0, spawnAccum := 0, particles := [], mode := EmitterMode.Spawning
    autoDestroy := autoDestroy }

/-- Modelled from the spec and the header contract of `CreateEmitter`
(`src/particle.h` lines 79-85: "INVALID_EMITTER when the resource is broken or
the context is full"): creation fails on a prototype with a null descriptor,
and on pool exhaustion; otherwise the first free slot is claimed and the
nonzero handle `index + 1` returned.  Shared worker for `CreateEmitter`
(auto-destroy off) and `FireAndForget` (auto-destroy on). -/
def createEmitterAuto (c : Context) (p : Prototype) (position : Point3)
    (rotation : Quat) (autoDestroy : Bool) : Context × HEmitter :=
  match p.m_DDF with
  | none => (c, INVALID_EMITTER)
  | some _ =>
    match findFreeSlot c.slots with
    | none => (c, INVALID_EMITTER)
    | some i =>
      ({ c with slots := c.slots.set i (some (newEmitter p position rotation autoDestroy)) },
       i + 1)

/-- `CreateEmitter` (`src/particle.h` lines 79-85), returning the updated
context and the handle (`INVALID_EMITTER` on failure). -/
def CreateEmitter (c : Context) (p : Prototype) : Context × HEmitter :=
  createEmitterAuto c p (0, 0, 0) (0, 0, 0, 1) false

/-- `DestroyEmitter` (`src/particle.h` lines 86-91): modelled from the spec,
the slot is released (an invalid handle is a caller contract violation;
modelled as a no-op on handle 0 or an out-of-range index). -/
def DestroyEmitter (c : Context) (h : HEmitter) : Context :=
  if h = 0 then c else { c with slots := c.slots.set (h - 1) none }

/-- Shared worker: apply `f` to the live emitter a handle designates. -/
def modifyEmitter (c : Context) (h : HEmitter) (f : Emitter → Emitter) : Context :=
  if h = 0 then c
  else
    match c.slots.getD (h - 1) none with
    | none => c
    | some e => { c with slots := c.slots.set (h - 1) (some (f e)) }

/-- Modelled from the spec (section 4.2): `StartEmitter` is a no-op on an
already-Spawning emitter, otherwise enters `Spawning` with the timer reset. -/
def StartEmitter (c : Context) (h : HEmitter) : Context :=
  modifyEmitter c h fun e =>
    if e.mode = EmitterMode.Spawning then e
    else { e with mode := EmitterMode.Spawning, timer := 0 }

/-- Modelled from the spec (section 4.2): `StopEmitter`: Spawning → Stopping;
already-living particles keep simulating, no new particles are spawned. -/
def StopEmitter (c : Context) (h : HEmitter) : Context :=
  modifyEmitter c h fun e => { e with mode := EmitterMode.Stopping }

/-- Modelled from the spec (section 4.2): `RestartEmitter`: any state →
Spawning, timer reset, particle buffer left untouched. -/
def RestartEmitter (c : Context) (h : HEmitter) : Context :=
  modifyEmitter c h fun e => { e with mode := EmitterMode.Spawning, timer := 0 }

/-- `SetPosition` (`src/particle.h` lines 123-129). -/
def SetPosition (c : Context) (h : HEmitter) (position : Point3) : Context :=
  modifyEmitter c h fun e => { e with position := position }

/-- `SetRotation` (`src/particle.h` lines 130-136). -/
def SetRotation (c : Context) (h : HEmitter) (rotation : Quat) : Context :=
  modifyEmitter c h fun e => { e with rotation := rotation }

/-- `SetGain` (`src/particle.h` lines 137-143): the gain is truncated to
[0,1] on every set (header doc and spec section 3 invariants). -/
def SetGain (c : Context) (h : HEmitter) (gain : ℚ) : Context :=
  modifyEmitter c h fun e => { e with gain := min 1 (max 0 gain) }

/-- `FireAndForget` (`src/particle.h` lines 112-121): modelled from the spec —
create-and-start with the auto-destroy flag set; a looping prototype is
validated and rejected ("Looping emitters can not be created this way"). -/
def FireAndForget (c : Context) (p : Prototype) (position : Point3)
    (rotation : Quat) : Context :=
  match p.m_DDF with
  | none => c
  | some d =>
    if d.looping then c
    else (createEmitterAuto c p position rotation true).1

/-- `IsSpawning` (`src/particle.h` lines 145-149): pure state read. -/
def IsSpawning (c : Context) (h : HEmitter) : Bool :=
  (lookupEmitter c h).elim false Emitter.spawning

/-- `IsSleeping` (`src/particle.h` lines 150-154): pure state read. -/
def IsSleeping (c : Context) (h : HEmitter) : Bool :=
  (lookupEmitter c h).elim false Emitter.sleeping

/-- Aging a particle by `dt` (spec section 4.3 step 3). -/
def Particle.agedBy (dt : ℚ) (p : Particle) : Particle :=
  { p with age := p.age + dt }

/-- Modelled from the spec (section 4.3, steps 1-4), for one emitter: advance
the clock by `dt`; if spawning, accumulate emission from the emission rate and
create whole new particles up to the per-emitter cap, excess dropped (no
queueing); age every existing particle by `dt` and remove those whose age
exceeds their configured life.  The exact emission-rate formula is explicitly
unspecified (spec section 9, open question); the model accumulates
`rate * dt` and spawns its integer part, which no claim depends on. -/
def stepEmitter (maxP : Nat) (dt : ℚ) (e : Emitter) : Emitter :=
  let doSpawn := e.spawning
  let acc := e.spawnAccum + e.ddf.rate * dt
  let want : Nat := if doSpawn then (Int.floor acc).toNat else 0
  let acc' : ℚ := if doSpawn then acc - (Int.floor acc).toNat else e.spawnAccum
  let room := maxP - e.particles.length
  let spawned := List.replicate (min want room)
    { position := e.position, velocity := (0, 0, 0), age := 0
      life := e.ddf.particleLife : Particle }
  let particles' := ((e.particles ++ spawned).map (Particle.agedBy dt)).filter
    fun p => decide (p.age ≤ p.life)
  { e with timer := e.timer + dt, spawnAccum := acc', particles := particles' }

/-- Modelled from the spec (section 4.3 step 5): after the per-emitter pass, a
sleeping emitter whose auto-destroy flag is set has its slot reclaimed. -/
def reclaimSlot : Option Emitter → Option Emitter
  | none => none
  | some e => if e.autoDestroy && e.sleeping then none else some e

/-- `Update` (`src/particle.h` lines 156-161): modelled from the spec (section
4.3) — step every live emitter by `dt`, then reclaim auto-destroy slots after
the per-emitter pass completes.  The view matrix only feeds camera-relative
computation, abstracted away. -/
def Update (c : Context) (dt : ℚ) (view : Matrix4) : Context :=
  let stepped := c.slots.map (Option.map (stepEmitter c.maxParticleCount dt))
  { c with slots := stepped.map reclaimSlot }

/-- A whole frame sequence: `Update` once per element of `dts`. -/
def applyUpdates (c : Context) (dts : List ℚ) (view : Matrix4) : Context :=
  dts.foldl (fun acc dt => Update acc dt view) c

/-- Number of live emitters in the pool. -/
def liveCount (c : Context) : Nat :=
  c.slots.countP Option.isSome

/-- Particle count of the emitter a handle designates (0 for a dead handle). -/
def particleCount (c : Context) (h : HEmitter) : Nat :=
  (lookupEmitter c h).elim 0 fun e => e.particles.length

/-- Modelled from the spec (section 4.4): the observable callback sequence of
one `Render` call, as an event trace — `setUp` once per distinct material
group, `perEmitter` once per emitter of the group (material, texture and the
emitter's vertex count; four corner vertices per particle), `tearDown` once
per group. -/
inductive RenderEvent where
  | setUp
  | perEmitter (material : Nat) (texture : Nat) (vertexCount : Nat)
  | tearDown
deriving DecidableEq

/-- The live emitters with at least one renderable particle, in pool order. -/
def renderableEmitters (c : Context) : List Emitter :=
  (c.slots.filterMap id).filter fun e => !e.particles.isEmpty

/-- The material of each renderable emitter, in pool order. -/
def renderMaterials (c : Context) : List Nat :=
  (renderableEmitters c).map fun e => e.prototype.m_Material

/-- The callback events `Render` produces for one material group. -/
def renderGroup (ems : List Emitter) (m : Nat) : List RenderEvent :=
  RenderEvent.setUp ::
    (ems.filter fun e => e.prototype.m_Material == m).map
      (fun e => RenderEvent.perEmitter e.prototype.m_Material e.prototype.m_Texture
        (4 * e.particles.length)) ++ [RenderEvent.tearDown]

/-- `Render` (`src/particle.h` lines 162-166): modelled from the spec (section
4.4) — walk the renderable emitters grouped by material (groups in order of
first appearance) and produce, per group, `setUp`, then one `perEmitter` per
emitter of the group, then `tearDown`. -/
def Render (c : Context) : List RenderEvent :=
  let ems := renderableEmitters c
  ((ems.map fun e => e.prototype.m_Material).dedup).flatMap (renderGroup ems)

/-- One slot's transformation under a single `Update`: simulation step, then
auto-destroy reclamation. -/
def slotStep (maxP : Nat) (dt : ℚ) (s : Option Emitter) : Option Emitter :=
  reclaimSlot (s.map (stepEmitter maxP dt))

/-- One slot's transformation under a sequence of `Update` calls. -/
def evolveSlot (maxP : Nat) (dts : List ℚ) (s : Option Emitter) : Option Emitter :=
  dts.foldl (fun s dt => slotStep maxP dt s) s

/-- The particles of an emitter all carry the prototype's configured life and
a nonnegative age. -/
def particlesWF (d : EmitterDDF) (e : Emitter) : Prop :=
  ∀ q ∈ e.particles, q.life = d.particleLife ∧ 0 ≤ q.age

/-- Invariant of a fire-and-forget emitter between updates: it still
references its (non-looping) descriptor, its auto-destroy flag is set, and
every live particle was spawned while the emitter's clock was inside the
configured duration and has not outlived its configured life. -/
def fafInv (d : EmitterDDF) (e : Emitter) : Prop :=
  e.prototype.m_DDF = some d ∧ e.autoDestroy = true ∧
    ∀ q ∈ e.particles,
      q.life = d.particleLife ∧ e.timer - q.age < d.duration ∧ q.age ≤ q.life

/-- Number of `setUp` callbacks in a render event trace. -/
def countSetUp (l : List RenderEvent) : Nat :=
  l.countP (· == RenderEvent.setUp)

/-- Number of `tearDown` callbacks in a render event trace. -/
def countTearDown (l : List RenderEvent) : Nat :=
  l.countP (· == RenderEvent.tearDown)

/-- Concrete fixture: a finite-duration descriptor (rate 1, duration 1,
particle life 1). -/
def wDDF : EmitterDDF := { rate := 1, duration := 1, looping := false, particleLife := 1 }

/-- Concrete fixture: a prototype over `wDDF`. -/
def wProto : Prototype := { m_DDF := some wDDF, m_Texture := 7, m_Material := 3 }

/-- Concrete fixture: configuration with pool capacity 2 and particle cap 4. -/
def wConfig : Config :=
  { max_emitter_count := 2, max_particle_count := 4, max_particle_buffer_count := 64 }

/-- Concrete fixture: an empty two-slot context. -/
def wCtx0 : Context := CreateContext wConfig

/-- Concrete fixture: `wCtx0` after creating one emitter from `wProto`. -/
def wCtx1 : Context := (CreateEmitter wCtx0 wProto).1

/-- Concrete fixture: the emitter living in `wCtx1` at handle 1. -/
def wEm : Emitter := newEmitter wProto (0, 0, 0) (0, 0, 0, 1) false

/-- Concrete fixture: a looping descriptor. -/
def wDDFLoop : EmitterDDF := { rate := 1, duration := 1, looping := true, particleLife := 1 }

/-- Concrete fixture: a prototype over `wDDFLoop`. -/
def wProtoLoop : Prototype := { m_DDF := some wDDFLoop, m_Texture := 7, m_Material := 3 }

/-- Concrete fixture: `wCtx0` after creating one looping emitter. -/
def wCtxLoop : Context := (CreateEmitter wCtx0 wProtoLoop).1

/-- Concrete fixture: the looping emitter living in `wCtxLoop` at handle 1. -/
def wEmLoop : Emitter := newEmitter wProtoLoop (0, 0, 0) (0, 0, 0, 1) false

/-- Concrete fixture: a zero-particle-life finite descriptor (duration 2). -/
def wDDF0 : EmitterDDF := { rate := 1, duration := 2, looping := false, particleLife := 0 }

/-- Concrete fixture: a prototype over `wDDF0`. -/
def wProto0 : Prototype := { m_DDF := some wDDF0, m_Texture := 7, m_Material := 3 }

/-- Concrete fixture: a long finite descriptor (duration 10, particle
life 5). -/
def wDDF2 : EmitterDDF := { rate := 2, duration := 10, looping := false, particleLife := 5 }

/-- Concrete fixture: a prototype over `wDDF2`. -/
def wProto2 : Prototype := { m_DDF := some wDDF2, m_Texture := 7, m_Material := 3 }

/-- Concrete fixture: a spawning emitter from `wProto2` that has already
simulated one second and carries one live particle (age 1, life 5). -/
def wEmP : Emitter :=
  { prototype := wProto2, position := (0, 0, 0), rotation := (0, 0, 0, 1), gain := 1
    timer := 1, spawnAccum := 0
    particles := [{ position := (0, 0, 0), velocity := (0, 0, 0), age := 1, life := 5 }]
    mode := EmitterMode.Spawning, autoDestroy := false }

/-- Concrete fixture: a context holding `wEmP` at handle 1. -/
def wCtxStop : Context :=
  { maxEmitterCount := 2, maxParticleCount := 4, slots := [some wEmP, none] }

/-- Concrete fixture: a context of capacity 1 holding one live emitter —
a full pool. -/
def wCtxFull : Context :=
  (CreateEmitter
    (CreateContext
      { max_emitter_count := 1, max_particle_count := 4, max_particle_buffer_count := 64 })
    wProto).1

/-- Concrete fixture: one live particle. -/
def wPart : Particle := { position := (0, 0, 0), velocity := (0, 0, 0), age := 0, life := 1 }

/-- Concrete fixture: an emitter with one live particle and material `m`. -/
def wEmMat (m : Nat) : Emitter :=
  { prototype := { m_DDF := some wDDF, m_Texture := 7, m_Material := m }
    position := (0, 0, 0), rotation := (0, 0, 0, 1), gain := 1, timer := 0
    spawnAccum := 0, particles := [wPart], mode := EmitterMode.Spawning
    autoDestroy := false }

/-- Concrete fixture: three renderable emitters, materials 5, 3, 3. -/
def wCtxRender : Context :=
  { maxEmitterCount := 3, maxParticleCount := 4
    slots := [some (wEmMat 5), some (wEmMat 3), some (wEmMat 3)] }

theorem slotStep_none (maxP : Nat) (dt : ℚ) : slotStep maxP dt none = none := rfl

theorem evolveSlot_none (maxP : Nat) (dts : List ℚ) : evolveSlot maxP dts none = none := by
  induction dts with
  | nil => rfl
  | cons dt dts ih => simpa [evolveSlot, slotStep_none] using ih

theorem Update_slots (c : Context) (dt : ℚ) (view : Matrix4) :
    (Update c dt view).slots = c.slots.map (slotStep c.maxParticleCount dt) := by
  simp only [Update, List.map_map]
  rfl

theorem Update_maxParticleCount (c : Context) (dt : ℚ) (view : Matrix4) :
    (Update c dt view).maxParticleCount = c.maxParticleCount := rfl

theorem getD_map_none (f : Option Emitter → Option Emitter) (hf : f none = none) :
    ∀ (l : List (Option Emitter)) (i : Nat), (l.map f).getD i none = f (l.getD i none) := by
  intro l
  induction l with
  | nil => intro i; simp [List.getD, hf]
  | cons a l ih =>
    intro i
    cases i with
    | zero => rfl
    | succ j => simpa using ih j

theorem getD_lt_length :
    ∀ (l : List (Option Emitter)) (i : Nat) (e : Emitter),
      l.getD i none = some e → i < l.length := by
  intro l
  induction l with
  | nil => intro i e hmem; simp [List.getD] at hmem
  | cons a l ih =>
    intro i e hmem
    cases i with
    | zero => simp
    | succ j =>
      have := ih j e (by simpa using hmem)
      simpa using Nat.succ_lt_succ this

theorem getD_set_self :
    ∀ (l : List (Option Emitter)) (i : Nat) (a : Option Emitter), i < l.length →
      (l.set i a).getD i none = a := by
  intro l
  induction l with
  | nil => intro i a hlt; simp at hlt
  | cons b l ih =>
    intro i a hlt
    cases i with
    | zero => rfl
    | succ j => simpa using ih j a (by simpa using hlt)

theorem getD_set_ne :
    ∀ (l : List (Option Emitter)) (i j : Nat) (a : Option Emitter), i ≠ j →
      (l.set i a).getD j none = l.getD j none := by
  intro l
  induction l with
  | nil => intro i j a hne; simp [List.getD]
  | cons b l ih =>
    intro i j a hne
    cases i with
    | zero =>
      cases j with
      | zero => exact absurd rfl hne
      | succ j2 => rfl
    | succ i2 =>
      cases j with
      | zero => rfl
      | succ j2 => simpa using ih i2 j2 a (fun hcon => hne (by omega))

theorem lookup_Update (c : Context) (dt : ℚ) (view : Matrix4) (h : HEmitter) :
    lookupEmitter (Update c dt view) h = slotStep c.maxParticleCount dt (lookupEmitter c h) := by
  by_cases h0 : h = 0
  · simp [lookupEmitter, h0, slotStep_none]
  · simp only [lookupEmitter, h0, if_false, Update_slots]
    exact getD_map_none _ (slotStep_none _ _) c.slots (h - 1)

theorem applyUpdates_nil (c : Context) (view : Matrix4) : applyUpdates c [] view = c := rfl

theorem applyUpdates_cons (c : Context) (dt : ℚ) (dts : List ℚ) (view : Matrix4) :
    applyUpdates c (dt :: dts) view = applyUpdates (Update c dt view) dts view := rfl

theorem applyUpdates_append (c : Context) (l1 l2 : List ℚ) (view : Matrix4) :
    applyUpdates c (l1 ++ l2) view = applyUpdates (applyUpdates c l1 view) l2 view := by
  simp [applyUpdates, List.foldl_append]

theorem applyUpdates_maxParticleCount (c : Context) (dts : List ℚ) (view : Matrix4) :
    (applyUpdates c dts view).maxParticleCount = c.maxParticleCount := by
  induction dts generalizing c with
  | nil => rfl
  | cons dt dts ih => simpa [applyUpdates_cons] using ih (Update c dt view)

theorem lookup_applyUpdates (c : Context) (dts : List ℚ) (view : Matrix4) (h : HEmitter) :
    lookupEmitter (applyUpdates c dts view) h =
      evolveSlot c.maxParticleCount dts (lookupEmitter c h) := by
  induction dts generalizing c with
  | nil => rfl
  | cons dt dts ih =>
    rw [applyUpdates_cons, ih (Update c dt view), Update_maxParticleCount, lookup_Update]
    rfl

theorem stepEmitter_prototype (maxP : Nat) (dt : ℚ) (e : Emitter) :
    (stepEmitter maxP dt e).prototype = e.prototype := rfl

theorem stepEmitter_mode (maxP : Nat) (dt : ℚ) (e : Emitter) :
    (stepEmitter maxP dt e).mode = e.mode := rfl

theorem stepEmitter_autoDestroy (maxP : Nat) (dt : ℚ) (e : Emitter) :
    (stepEmitter maxP dt e).autoDestroy = e.autoDestroy := rfl

theorem stepEmitter_timer (maxP : Nat) (dt : ℚ) (e : Emitter) :
    (stepEmitter maxP dt e).timer = e.timer + dt := rfl

theorem stepEmitter_ddf (maxP : Nat) (dt : ℚ) (e : Emitter) :
    (stepEmitter maxP dt e).ddf = e.ddf := rfl

theorem slotStep_of_not_auto (maxP : Nat) (dt : ℚ) (e : Emitter)
    (ha : e.autoDestroy = false) :
    slotStep maxP dt (some e) = some (stepEmitter maxP dt e) := by
  simp [slotStep, reclaimSlot, stepEmitter_autoDestroy, ha]

theorem evolveSlot_cons (maxP : Nat) (dt : ℚ) (rest : List ℚ) (s : Option Emitter) :
    evolveSlot maxP (dt :: rest) s = evolveSlot maxP rest (slotStep maxP dt s) := rfl

theorem getD_mem :
    ∀ (l : List (Option Emitter)) (i : Nat) (e : Emitter),
      l.getD i none = some e → some e ∈ l := by
  intro l
  induction l with
  | nil => intro i e hmem; simp [List.getD] at hmem
  | cons a l ih =>
    intro i e hmem
    cases i with
    | zero =>
      have ha : a = some e := by simpa using hmem
      rw [ha]
      exact List.mem_cons_self _ _
    | succ j => exact List.mem_cons_of_mem a (ih j e (by simpa using hmem))

theorem lookup_mem (c : Context) (h : HEmitter) (e : Emitter)
    (hlive : lookupEmitter c h = some e) : some e ∈ c.slots := by
  by_cases h0 : h = 0
  · rw [lookupEmitter, if_pos h0] at hlive
    exact Option.noConfusion hlive
  · rw [lookupEmitter, if_neg h0] at hlive
    exact getD_mem c.slots (h - 1) e hlive

theorem lookup_modifyEmitter (c : Context) (h : HEmitter) (e : Emitter)
    (f : Emitter → Emitter) (hlive : lookupEmitter c h = some e) :
    lookupEmitter (modifyEmitter c h f) h = some (f e) := by
  have h0 : ¬ h = 0 := by
    intro hcon
    rw [lookupEmitter, if_pos hcon] at hlive
    exact Option.noConfusion hlive
  rw [lookupEmitter, if_neg h0] at hlive
  have hlt : h - 1 < c.slots.length := getD_lt_length _ _ _ hlive
  rw [modifyEmitter, if_neg h0, hlive]
  simp only [lookupEmitter, if_neg h0]
  exact getD_set_self _ _ _ hlt

theorem findFreeSlot_eq_none :
    ∀ l : List (Option Emitter), findFreeSlot l = none ↔ ∀ s ∈ l, s.isSome = true := by
  intro l
  induction l with
  | nil => simp [findFreeSlot]
  | cons a l ih =>
    cases a with
    | none => simp [findFreeSlot]
    | some e => simp [findFreeSlot, Option.map_eq_none, ih]

theorem liveCount_eq_length (c : Context) :
    liveCount c = c.slots.length ↔ ∀ s ∈ c.slots, s.isSome = true := by
  rw [liveCount]
  exact List.countP_eq_length

theorem findFreeSlot_spec :
    ∀ (l : List (Option Emitter)) (i : Nat), findFreeSlot l = some i →
      i < l.length ∧ l.getD i none = none := by
  intro l
  induction l with
  | nil => intro i hcon; exact Option.noConfusion hcon
  | cons a l ih =>
    intro i hfind
    cases a with
    | none =>
      have : i = 0 := by simpa [findFreeSlot] using hfind.symm
      subst this
      exact ⟨Nat.succ_pos _, rfl⟩
    | some e =>
      rw [findFreeSlot, Option.map_eq_some'] at hfind
      obtain ⟨j, hj, hij⟩ := hfind
      obtain ⟨hlt, hget⟩ := ih j hj
      subst hij
      exact ⟨by simpa using Nat.succ_lt_succ hlt, by simpa using hget⟩

theorem findFreeSlot_isSome :
    ∀ (l : List (Option Emitter)) (i : Nat), i < l.length → l.getD i none = none →
      (findFreeSlot l).isSome = true := by
  intro l
  induction l with
  | nil => intro i hlt; simp at hlt
  | cons a l ih =>
    intro i hlt hget
    cases a with
    | none => simp [findFreeSlot]
    | some e =>
      cases i with
      | zero => exact Option.noConfusion hget
      | succ j =>
        have hrec := ih j (by simpa using hlt) (by simpa using hget)
        obtain ⟨k, hk⟩ := Option.isSome_iff_exists.mp hrec
        simp [findFreeSlot, hk]

theorem countP_set_none :
    ∀ (l : List (Option Emitter)) (i : Nat) (e : Emitter), l.getD i none = some e →
      (l.set i none).countP Option.isSome + 1 = l.countP Option.isSome := by
  intro l
  induction l with
  | nil => intro i e hmem; simp [List.getD] at hmem
  | cons a l ih =>
    intro i e hmem
    cases i with
    | zero =>
      have ha : a = some e := by simpa using hmem
      subst ha
      simp [List.countP_cons]
    | succ j =>
      have := ih j e (by simpa using hmem)
      simp only [List.set]
      rw [List.countP_cons, List.countP_cons]
      omega

theorem slots_split_of_getD_none :
    ∀ (l : List (Option Emitter)) (i : Nat), i < l.length → l.getD i none = none →
      ∃ l1 l2, l = l1 ++ none :: l2 ∧ l1.length = i := by
  intro l
  induction l with
  | nil => intro i hlt; simp at hlt
  | cons a l ih =>
    intro i hlt hget
    cases i with
    | zero =>
      have ha : a = none := by simpa using hget
      subst ha
      exact ⟨[], l, rfl, rfl⟩
    | succ j =>
      obtain ⟨l1, l2, hsplit, hlen⟩ := ih j (by simpa using hlt) (by simpa using hget)
      exact ⟨a :: l1, l2, by rw [hsplit]; rfl, by simpa using hlen⟩

theorem set_at_append_length :
    ∀ (l1 : List (Option Emitter)) (x : Option Emitter) (l2 : List (Option Emitter))
      (a : Option Emitter), (l1 ++ x :: l2).set l1.length a = l1 ++ a :: l2 := by
  intro l1
  induction l1 with
  | nil => intro x l2 a; rfl
  | cons b l1 ih => intro x l2 a; simpa [List.set] using ih x l2 a

theorem applyUpdates_slots (c : Context) (dts : List ℚ) (view : Matrix4) :
    (applyUpdates c dts view).slots = c.slots.map (evolveSlot c.maxParticleCount dts) := by
  induction dts generalizing c with
  | nil =>
    rw [applyUpdates_nil]
    have hid : evolveSlot c.maxParticleCount [] = fun s => s := rfl
    rw [hid, List.map_id']
  | cons dt rest ih =>
    rw [applyUpdates_cons, ih (Update c dt view), Update_maxParticleCount, Update_slots,
      List.map_map]
    rfl

theorem countP_isSome_map_congr (F : Option Emitter → Option Emitter) :
    ∀ l : List (Option Emitter), (∀ s ∈ l, (F s).isSome = s.isSome) →
      (l.map F).countP Option.isSome = l.countP Option.isSome := by
  intro l
  induction l with
  | nil => intro _; rfl
  | cons a l ih =>
    intro hptr
    rw [List.map_cons, List.countP_cons, List.countP_cons, hptr a (List.mem_cons_self a l),
      ih fun s hs => hptr s (List.mem_cons_of_mem a hs)]

theorem mem_stepEmitter_particles (maxP : Nat) (dt : ℚ) (e : Emitter) (q : Particle)
    (hq : q ∈ (stepEmitter maxP dt e).particles) :
    q.age ≤ q.life ∧ ∃ q0, q = Particle.agedBy dt q0 ∧
      (q0 ∈ e.particles ∨
        (e.spawning = true ∧ q0.age = 0 ∧ q0.life = e.ddf.particleLife)) := by
  simp only [stepEmitter] at hq
  rw [List.mem_filter] at hq
  obtain ⟨hmem, hpred⟩ := hq
  refine ⟨of_decide_eq_true hpred, ?_⟩
  rw [List.mem_map] at hmem
  obtain ⟨q0, hq0, hEq⟩ := hmem
  refine ⟨q0, hEq.symm, ?_⟩
  rw [List.mem_append] at hq0
  rcases hq0 with hold | hnew
  · exact Or.inl hold
  · rw [List.mem_replicate] at hnew
    obtain ⟨hne, hq0eq⟩ := hnew
    right
    cases hsp : e.spawning with
    | false => simp [hsp] at hne
    | true => subst hq0eq; exact ⟨rfl, rfl, rfl⟩

theorem stepEmitter_particles_cap (maxP : Nat) (dt : ℚ) (e : Emitter)
    (hlen : e.particles.length ≤ maxP) :
    (stepEmitter maxP dt e).particles.length ≤ maxP := by
  simp only [stepEmitter]
  refine le_trans (List.length_filter_le _ _) ?_
  rw [List.length_map, List.length_append, List.length_replicate]
  refine le_trans (Nat.add_le_add_left (Nat.min_le_right _ _) _) ?_
  omega

theorem stepEmitter_no_spawn_particles (maxP : Nat) (dt : ℚ) (e : Emitter)
    (hspawn : e.spawning = false) :
    (stepEmitter maxP dt e).particles =
      (e.particles.map (Particle.agedBy dt)).filter fun p => decide (p.age ≤ p.life) := by
  simp [stepEmitter, hspawn]

theorem spawning_of_looping (e : Emitter) (hmode : e.mode = EmitterMode.Spawning)
    (hloop : e.ddf.looping = true) : e.spawning = true := by
  simp [Emitter.spawning, hmode, hloop]

theorem spawning_false_of_stopping (e : Emitter)
    (hmode : e.mode = EmitterMode.Stopping) : e.spawning = false := by
  simp [Emitter.spawning, hmode]

theorem spawning_false_of_elapsed (e : Emitter) (hloop : e.ddf.looping = false)
    (ht : e.ddf.duration ≤ e.timer) : e.spawning = false := by
  have hdec : decide (e.timer < e.ddf.duration) = false := decide_eq_false (not_lt.mpr ht)
  simp [Emitter.spawning, hloop, hdec]

theorem evolve_not_auto (maxP : Nat) (dts : List ℚ) (e : Emitter)
    (ha : e.autoDestroy = false) :
    ∃ e', evolveSlot maxP dts (some e) = some e' ∧
      e'.prototype = e.prototype ∧ e'.mode = e.mode ∧ e'.autoDestroy = false ∧
      e'.timer = e.timer + dts.sum ∧
      ((∀ x ∈ dts, 0 ≤ x) → particlesWF e.ddf e → particlesWF e.ddf e') := by
  induction dts generalizing e with
  | nil => exact ⟨e, rfl, rfl, rfl, ha, by simp [evolveSlot], fun _ hwf => hwf⟩
  | cons dt rest ih =>
    have hstep : slotStep maxP dt (some e) = some (stepEmitter maxP dt e) :=
      slotStep_of_not_auto maxP dt e ha
    have ha2 : (stepEmitter maxP dt e).autoDestroy = false := by
      rw [stepEmitter_autoDestroy]; exact ha
    obtain ⟨e', hev, hproto, hmode, hauto, htimer, hpart⟩ := ih (stepEmitter maxP dt e) ha2
    refine ⟨e', by rw [evolveSlot_cons, hstep]; exact hev, ?_, ?_, hauto, ?_, ?_⟩
    · rw [hproto, stepEmitter_prototype]
    · rw [hmode, stepEmitter_mode]
    · rw [htimer, stepEmitter_timer, List.sum_cons]; ring
    · intro hnn hwf
      have hdt : 0 ≤ dt := hnn dt (List.mem_cons_self _ _)
      have hrest : ∀ x ∈ rest, 0 ≤ x := fun x hx => hnn x (List.mem_cons_of_mem _ hx)
      have hddf : (stepEmitter maxP dt e).ddf = e.ddf := stepEmitter_ddf _ _ _
      have hwf2 : particlesWF e.ddf (stepEmitter maxP dt e) := by
        intro q hq
        obtain ⟨_, q0, hqeq, hcase⟩ := mem_stepEmitter_particles maxP dt e q hq
        rcases hcase with hold | ⟨_, hage, hlife⟩
        · obtain ⟨hl, hq0age⟩ := hwf q0 hold
          subst hqeq
          exact ⟨hl, add_nonneg hq0age hdt⟩
        · subst hqeq
          refine ⟨?_, ?_⟩
          · show q0.life = e.ddf.particleLife
            exact hlife
          · show 0 ≤ q0.age + dt
            rw [hage]
            simpa using hdt
      have := hpart hrest (by rw [hddf]; exact hwf2)
      rw [hddf] at this
      exact this

theorem evolve_looping (maxP : Nat) (dts : List ℚ) (e : Emitter)
    (hmode : e.mode = EmitterMode.Spawning) (hloop : e.ddf.looping = true) :
    ∃ e', evolveSlot maxP dts (some e) = some e' ∧
      e'.mode = EmitterMode.Spawning ∧ e'.ddf.looping = true := by
  induction dts generalizing e with
  | nil => exact ⟨e, rfl, hmode, hloop⟩
  | cons dt rest ih =>
    have hm2 : (stepEmitter maxP dt e).mode = EmitterMode.Spawning := by
      rw [stepEmitter_mode]; exact hmode
    have hl2 : (stepEmitter maxP dt e).ddf.looping = true := by
      rw [stepEmitter_ddf]; exact hloop
    have hsleep : (stepEmitter maxP dt e).sleeping = false := by
      simp [Emitter.sleeping, spawning_of_looping _ hm2 hl2]
    have hstep : slotStep maxP dt (some e) = some (stepEmitter maxP dt e) := by
      simp [slotStep, reclaimSlot, hsleep]
    obtain ⟨e', hev, h1, h2⟩ := ih (stepEmitter maxP dt e) hm2 hl2
    exact ⟨e', by rw [evolveSlot_cons, hstep]; exact hev, h1, h2⟩

/-- C10: a default-constructed `Prototype` has a null emission-descriptor
pointer and zero texture and material handles. -/
theorem prototype_init_unset :
    Prototype.init.m_DDF = none ∧ Prototype.init.m_Texture = 0 ∧
      Prototype.init.m_Material = 0 :=
  ⟨rfl, rfl, rfl⟩

/-- C8: `SetGain` clamps its input to [0,1] on every call: the stored gain
afterwards equals `min 1 (max 0 g)`. -/
theorem setGain_clamps (c : Context) (h : HEmitter) (e : Emitter) (g : ℚ)
    (hlive : lookupEmitter c h = some e) :
    lookupEmitter (SetGain c h g) h = some { e with gain := min 1 (max 0 g) } := by
  have h0 : ¬ h = 0 := by
    intro hcon
    rw [lookupEmitter, if_pos hcon] at hlive
    exact Option.noConfusion hlive
  rw [lookupEmitter, if_neg h0] at hlive
  have hlt : h - 1 < c.slots.length := getD_lt_length _ _ _ hlive
  rw [SetGain, modifyEmitter, if_neg h0, hlive]
  simp only [lookupEmitter, if_neg h0]
  exact getD_set_self _ _ _ hlt

/-- C1: for every call to `Update` with `dt ≥ 0`, every live emitter's
particle count after the update is at most the configured per-emitter maximum
(`max_particle_count`), provided every live emitter respected the cap before;
excess emission is dropped by the step, never queued. -/
theorem update_particle_cap (c : Context) (dt : ℚ) (view : Matrix4)
    (hdt : 0 ≤ dt)
    (hwf : ∀ h e, lookupEmitter c h = some e → e.particles.length ≤ c.maxParticleCount) :
    ∀ h e', lookupEmitter (Update c dt view) h = some e' →
      e'.particles.length ≤ c.maxParticleCount := by
  intro h e' hlive'
  rw [lookup_Update] at hlive'
  cases hl : lookupEmitter c h with
  | none => rw [hl, slotStep_none] at hlive'; exact Option.noConfusion hlive'
  | some e =>
    rw [hl] at hlive'
    have hcap := hwf h e hl
    have hstep : e' = stepEmitter c.maxParticleCount dt e := by
      simp only [slotStep, Option.map_some', reclaimSlot] at hlive'
      split at hlive'
      · exact Option.noConfusion hlive'
      · exact (Option.some.inj hlive').symm
    rw [hstep]
    exact stepEmitter_particles_cap _ _ _ hcap

/-- Witness for C1: the cap invariant holds in the concrete context `wCtx1`
and is preserved by `Update` with `dt = 1`. -/
theorem update_particle_cap_witness :
    (0 : ℚ) ≤ 1 ∧
    (∀ h e, lookupEmitter wCtx1 h = some e →
      e.particles.length ≤ wCtx1.maxParticleCount) ∧
    (∀ h e', lookupEmitter (Update wCtx1 1 []) h = some e' →
      e'.particles.length ≤ wCtx1.maxParticleCount) := by
  have hwf : ∀ h e, lookupEmitter wCtx1 h = some e →
      e.particles.length ≤ wCtx1.maxParticleCount := by
    intro h e hl
    have hmem := lookup_mem _ _ _ hl
    have hslots : wCtx1.slots = [some wEm, none] := rfl
    rw [hslots] at hmem
    simp at hmem
    subst hmem
    decide
  exact ⟨by norm_num, hwf, update_particle_cap wCtx1 1 [] (by norm_num) hwf⟩

/-- C2: with a full pool, `CreateEmitter` returns `INVALID_EMITTER`;
`DestroyEmitter` of a live emitter frees exactly one slot; a subsequent
`CreateEmitter` (with a valid prototype) then succeeds with a nonzero
handle. -/
theorem pool_exhaustion (c : Context) (p : Prototype) (d : EmitterDDF)
    (h : HEmitter) (e : Emitter)
    (hddf : p.m_DDF = some d)
    (hfull : liveCount c = c.slots.length)
    (hlive : lookupEmitter c h = some e) :
    (CreateEmitter c p).2 = INVALID_EMITTER ∧
    liveCount (DestroyEmitter c h) + 1 = liveCount c ∧
    (CreateEmitter (DestroyEmitter c h) p).2 ≠ INVALID_EMITTER := by
  have h0 : ¬ h = 0 := by
    intro hcon
    rw [lookupEmitter, if_pos hcon] at hlive
    exact Option.noConfusion hlive
  rw [lookupEmitter, if_neg h0] at hlive
  have hlt : h - 1 < c.slots.length := getD_lt_length _ _ _ hlive
  have hall := (liveCount_eq_length c).mp hfull
  have hfind : findFreeSlot c.slots = none := (findFreeSlot_eq_none _).mpr hall
  refine ⟨?_, ?_, ?_⟩
  · simp [CreateEmitter, createEmitterAuto, hddf, hfind, INVALID_EMITTER]
  · have hde : DestroyEmitter c h = { c with slots := c.slots.set (h - 1) none } := by
      rw [DestroyEmitter, if_neg h0]
    rw [hde]
    show (c.slots.set (h - 1) none).countP Option.isSome + 1 = liveCount c
    exact countP_set_none _ _ _ hlive
  · have hde : DestroyEmitter c h = { c with slots := c.slots.set (h - 1) none } := by
      rw [DestroyEmitter, if_neg h0]
    rw [hde]
    have hget' : (c.slots.set (h - 1) none).getD (h - 1) none = none :=
      getD_set_self _ _ _ (by simpa using hlt)
    have hfree := findFreeSlot_isSome (c.slots.set (h - 1) none) (h - 1)
      (by simpa using hlt) hget'
    obtain ⟨j, hj⟩ := Option.isSome_iff_exists.mp hfree
    simp [CreateEmitter, createEmitterAuto, hddf, hj, INVALID_EMITTER]

/-- Witness for C2 on a concrete capacity-1 context holding one live
emitter. -/
theorem pool_exhaustion_witness :
    (CreateEmitter wCtxFull wProto).2 = INVALID_EMITTER ∧
    liveCount (DestroyEmitter wCtxFull 1) + 1 = liveCount wCtxFull ∧
    (CreateEmitter (DestroyEmitter wCtxFull 1) wProto).2 ≠ INVALID_EMITTER :=
  pool_exhaustion wCtxFull wProto wDDF 1 wEm rfl (by decide) rfl

/-- C4: an emitter whose prototype has the looping flag set reports
`IsSpawning = true` and `IsSleeping = false` after any sequence of `Update`
calls with nonnegative `dt` values. -/
theorem looping_never_sleeps (c : Context) (h : HEmitter) (e : Emitter)
    (view : Matrix4) (dts : List ℚ)
    (hlive : lookupEmitter c h = some e)
    (hmode : e.mode = EmitterMode.Spawning)
    (hloop : e.ddf.looping = true)
    (hdts : ∀ x ∈ dts, 0 ≤ x) :
    IsSpawning (applyUpdates c dts view) h = true ∧
    IsSleeping (applyUpdates c dts view) h = false := by
  obtain ⟨e', hev, hm, hl⟩ := evolve_looping c.maxParticleCount dts e hmode hloop
  have hlook : lookupEmitter (applyUpdates c dts view) h = some e' := by
    rw [lookup_applyUpdates, hlive, hev]
  have hsp : e'.spawning = true := spawning_of_looping e' hm hl
  constructor
  · unfold IsSpawning
    rw [hlook]
    exact hsp
  · unfold IsSleeping
    rw [hlook]
    show e'.sleeping = false
    simp [Emitter.sleeping, hsp]

/-- Witness for C4 on the concrete looping emitter of `wCtxLoop`, after two
updates. -/
theorem looping_never_sleeps_witness :
    IsSpawning (applyUpdates wCtxLoop [1, 2] []) 1 = true ∧
    IsSleeping (applyUpdates wCtxLoop [1, 2] []) 1 = false :=
  looping_never_sleeps wCtxLoop 1 wEmLoop [] [1, 2] rfl rfl rfl
    (by norm_num [List.forall_mem_cons])

/-- Witness for C8: inputs −1 and 2 are stored as gains 0 and 1. -/
theorem setGain_clamps_witness :
    lookupEmitter (SetGain wCtx1 1 (-1)) 1 = some { wEm with gain := 0 } ∧
    lookupEmitter (SetGain wCtx1 1 2) 1 = some { wEm with gain := 1 } := by
  constructor
  · have h1 := setGain_clamps wCtx1 1 wEm (-1) rfl
    have e1 : min (1 : ℚ) (max 0 (-1)) = 0 := by norm_num
    rw [e1] at h1
    exact h1
  · have h2 := setGain_clamps wCtx1 1 wEm 2 rfl
    have e2 : min (1 : ℚ) (max 0 2) = 1 := by norm_num
    rw [e2] at h2
    exact h2

theorem stepEmitter_count_no_spawn (maxP : Nat) (dt : ℚ) (e : Emitter)
    (hspawn : e.spawning = false) :
    (stepEmitter maxP dt e).particles.length ≤ e.particles.length := by
  rw [stepEmitter_no_spawn_particles _ _ _ hspawn]
  exact le_trans (List.length_filter_le _ _) (le_of_eq (List.length_map _ _))

theorem newEmitter_ddf (p : Prototype) (position : Point3) (rotation : Quat)
    (autoDestroy : Bool) (d : EmitterDDF) (hddf : p.m_DDF = some d) :
    (newEmitter p position rotation autoDestroy).ddf = d := by
  simp [newEmitter, Emitter.ddf, hddf]

/-- C5: a non-looping emitter created from a prototype with duration `D` and
zero-length particle life is never sleeping while its accumulated simulated
time is strictly below `D`, and is sleeping once accumulated time has reached
`D` and one further update with positive `dt` has run. -/
theorem zero_life_sleeps_at_duration (c c1 : Context) (p : Prototype) (d : EmitterDDF)
    (h : HEmitter) (view : Matrix4)
    (hddf : p.m_DDF = some d)
    (hloop : d.looping = false)
    (hlife : d.particleLife = 0)
    (hcreate : CreateEmitter c p = (c1, h))
    (hok : h ≠ INVALID_EMITTER) :
    (∀ dts, (∀ x ∈ dts, 0 ≤ x) → dts.sum < d.duration →
      IsSleeping (applyUpdates c1 dts view) h = false) ∧
    (∀ dts, (∀ x ∈ dts, 0 ≤ x) → d.duration ≤ dts.sum →
      ∀ dt, 0 < dt →
        IsSleeping (applyUpdates c1 (dts ++ [dt]) view) h = true) := by
  -- unpack the successful creation
  obtain ⟨i, hf⟩ : ∃ i, findFreeSlot c.slots = some i := by
    cases hf : findFreeSlot c.slots with
    | none =>
      simp only [CreateEmitter, createEmitterAuto, hddf, hf, Prod.mk.injEq] at hcreate
      exact absurd hcreate.2.symm hok
    | some i => exact ⟨i, rfl⟩
  obtain ⟨hilt, _⟩ := findFreeSlot_spec _ _ hf
  simp only [CreateEmitter, createEmitterAuto, hddf, hf, Prod.mk.injEq] at hcreate
  obtain ⟨hc1, hh⟩ := hcreate
  subst hh
  set e0 : Emitter := newEmitter p (0, 0, 0) (0, 0, 0, 1) false with he0
  have hlive : lookupEmitter c1 (i + 1) = some e0 := by
    rw [← hc1]
    show (c.slots.set i (some e0)).getD i none = some e0
    exact getD_set_self _ _ _ (by simpa using hilt)
  have he0ddf : e0.ddf = d := newEmitter_ddf p _ _ _ d hddf
  constructor
  · intro dts hnn hlt
    obtain ⟨e', hev, hproto, hmode, _, htimer, _⟩ :=
      evolve_not_auto c1.maxParticleCount dts e0 rfl
    have hlook : lookupEmitter (applyUpdates c1 dts view) (i + 1) = some e' := by
      rw [lookup_applyUpdates, hlive, hev]
    have hddf' : e'.ddf = d := by rw [Emitter.ddf, hproto, ← Emitter.ddf, he0ddf]
    have hmode' : e'.mode = EmitterMode.Spawning := by rw [hmode]; rfl
    have htimer' : e'.timer < d.duration := by
      rw [htimer]
      show e0.timer + dts.sum < d.duration
      have h0 : e0.timer = 0 := rfl
      rw [h0, zero_add]
      exact hlt
    have hsp : e'.spawning = true := by
      have hdec : decide (e'.timer < e'.ddf.duration) = true :=
        decide_eq_true (by rw [hddf']; exact htimer')
      simp [Emitter.spawning, hmode', hdec]
    unfold IsSleeping
    rw [hlook]
    show e'.sleeping = false
    simp [Emitter.sleeping, hsp]
  · intro dts hnn hge dt hdtpos
    obtain ⟨e', hev, hproto, hmode, hauto', htimer, hpWF⟩ :=
      evolve_not_auto c1.maxParticleCount dts e0 rfl
    have hlook : lookupEmitter (applyUpdates c1 dts view) (i + 1) = some e' := by
      rw [lookup_applyUpdates, hlive, hev]
    have hddf' : e'.ddf = d := by rw [Emitter.ddf, hproto, ← Emitter.ddf, he0ddf]
    have hwf' : particlesWF e0.ddf e' := by
      refine hpWF hnn ?_
      intro q hq
      exact absurd hq (List.not_mem_nil q)
    have htimer' : d.duration ≤ e'.timer := by
      rw [htimer]
      show d.duration ≤ e0.timer + dts.sum
      have h0 : e0.timer = 0 := rfl
      rw [h0, zero_add]
      exact hge
    have hspawn' : e'.spawning = false :=
      spawning_false_of_elapsed e' (by rw [hddf']; exact hloop) (by rw [hddf']; exact htimer')
    -- the final update with positive dt kills every remaining particle
    rw [applyUpdates_append]
    have hstep1 : applyUpdates (applyUpdates c1 dts view) [dt] view =
        Update (applyUpdates c1 dts view) dt view := rfl
    rw [hstep1]
    unfold IsSleeping
    rw [lookup_Update, hlook, slotStep_of_not_auto _ _ _ hauto']
    show (stepEmitter (applyUpdates c1 dts view).maxParticleCount dt e').sleeping = true
    set maxP := (applyUpdates c1 dts view).maxParticleCount
    have hpempty : (stepEmitter maxP dt e').particles = [] := by
      rw [stepEmitter_no_spawn_particles _ _ _ hspawn']
      rw [List.filter_eq_nil_iff]
      intro q hq
      rw [List.mem_map] at hq
      obtain ⟨q0, hq0, hqeq⟩ := hq
      obtain ⟨hl0, ha0⟩ := hwf' q0 hq0
      rw [he0ddf, hlife] at hl0
      subst hqeq
      have : ¬ (q0.age + dt ≤ q0.life) := by
        rw [hl0]
        intro hcon
        have : (0 : ℚ) < q0.age + dt := add_pos_of_nonneg_of_pos ha0 hdtpos
        linarith
      simpa [Particle.agedBy] using this
    have hspawnstep : (stepEmitter maxP dt e').spawning = false := by
      refine spawning_false_of_elapsed _ ?_ ?_
      · rw [stepEmitter_ddf, hddf']
        exact hloop
      · rw [stepEmitter_ddf, hddf', stepEmitter_timer]
        linarith
    simp [Emitter.sleeping, hpempty, hspawnstep]

/-- Witness for C5: the concrete zero-life emitter of `wProto0` (duration 2)
is not sleeping after 1 second, and is sleeping after 2 seconds plus one more
second of simulation. -/
theorem zero_life_sleeps_at_duration_witness :
    IsSleeping (applyUpdates (CreateEmitter wCtx0 wProto0).1 [1] []) 1 = false ∧
    IsSleeping (applyUpdates (CreateEmitter wCtx0 wProto0).1 ([2] ++ [1]) []) 1 = true := by
  obtain ⟨ha, hb⟩ := zero_life_sleeps_at_duration wCtx0 (CreateEmitter wCtx0 wProto0).1
    wProto0 wDDF0 1 [] rfl rfl rfl rfl (by decide)
  constructor
  · exact ha [1] (by norm_num [List.forall_mem_cons]) (by norm_num [wDDF0])
  · exact hb [2] (by norm_num [List.forall_mem_cons]) (by norm_num [wDDF0]) 1 (by norm_num)

/-- C6: after `StopEmitter` on a Spawning emitter, `IsSpawning` stays false
under all subsequent updates, the particle count is non-increasing across
every subsequent update step, and an update with `dt` smaller than a live
particle's remaining life leaves the emitter neither spawning nor
sleeping. -/
theorem stopEmitter_no_respawn (c : Context) (h : HEmitter) (e : Emitter) (view : Matrix4)
    (hlive : lookupEmitter c h = some e)
    (hauto : e.autoDestroy = false)
    (hmode : e.mode = EmitterMode.Spawning) :
    (∀ dts, IsSpawning (applyUpdates (StopEmitter c h) dts view) h = false) ∧
    (∀ dts dt, particleCount (applyUpdates (StopEmitter c h) (dts ++ [dt]) view) h ≤
      particleCount (applyUpdates (StopEmitter c h) dts view) h) ∧
    (∀ dts dt e1, lookupEmitter (applyUpdates (StopEmitter c h) dts view) h = some e1 →
      (∃ q ∈ e1.particles, q.age + dt < q.life) →
      IsSpawning (applyUpdates (StopEmitter c h) (dts ++ [dt]) view) h = false ∧
      IsSleeping (applyUpdates (StopEmitter c h) (dts ++ [dt]) view) h = false) := by
  have hlive2 : lookupEmitter (StopEmitter c h) h =
      some { e with mode := EmitterMode.Stopping } :=
    lookup_modifyEmitter c h e _ hlive
  set e2 : Emitter := { e with mode := EmitterMode.Stopping } with he2
  have ha2 : e2.autoDestroy = false := hauto
  set maxP := (StopEmitter c h).maxParticleCount with hmaxP
  refine ⟨?_, ?_, ?_⟩
  · intro dts
    obtain ⟨e', hev, _, hmodeEq, _, _, _⟩ := evolve_not_auto maxP dts e2 ha2
    have hlook : lookupEmitter (applyUpdates (StopEmitter c h) dts view) h = some e' := by
      rw [lookup_applyUpdates, hlive2, hev]
    unfold IsSpawning
    rw [hlook]
    exact spawning_false_of_stopping e' (by rw [hmodeEq])
  · intro dts dt
    obtain ⟨e', hev, _, hmodeEq, hauto', _, _⟩ := evolve_not_auto maxP dts e2 ha2
    have hlook : lookupEmitter (applyUpdates (StopEmitter c h) dts view) h = some e' := by
      rw [lookup_applyUpdates, hlive2, hev]
    rw [applyUpdates_append]
    have hstep1 : applyUpdates (applyUpdates (StopEmitter c h) dts view) [dt] view =
        Update (applyUpdates (StopEmitter c h) dts view) dt view := rfl
    rw [hstep1]
    unfold particleCount
    rw [lookup_Update, hlook, slotStep_of_not_auto _ _ _ hauto']
    show (stepEmitter _ dt e').particles.length ≤ e'.particles.length
    exact stepEmitter_count_no_spawn _ _ _
      (spawning_false_of_stopping e' (by rw [hmodeEq]))
  · intro dts dt e1 hlook1 hq
    obtain ⟨e', hev, _, hmodeEq, hauto', _, _⟩ := evolve_not_auto maxP dts e2 ha2
    have hlook : lookupEmitter (applyUpdates (StopEmitter c h) dts view) h = some e' := by
      rw [lookup_applyUpdates, hlive2, hev]
    rw [hlook] at hlook1
    have he1 : e1 = e' := (Option.some.inj hlook1).symm
    subst he1
    obtain ⟨q, hqmem, hqlt⟩ := hq
    have hspawn1 : e1.spawning = false :=
      spawning_false_of_stopping e1 (by rw [hmodeEq])
    rw [applyUpdates_append]
    have hstep1 : applyUpdates (applyUpdates (StopEmitter c h) dts view) [dt] view =
        Update (applyUpdates (StopEmitter c h) dts view) dt view := rfl
    rw [hstep1]
    have hlook2 : lookupEmitter
        (Update (applyUpdates (StopEmitter c h) dts view) dt view) h =
        some (stepEmitter (applyUpdates (StopEmitter c h) dts view).maxParticleCount dt e1) := by
      rw [lookup_Update, hlook, slotStep_of_not_auto _ _ _ hauto']
    set maxP2 := (applyUpdates (StopEmitter c h) dts view).maxParticleCount
    have hmem2 : Particle.agedBy dt q ∈ (stepEmitter maxP2 dt e1).particles := by
      rw [stepEmitter_no_spawn_particles _ _ _ hspawn1]
      rw [List.mem_filter]
      refine ⟨List.mem_map_of_mem _ hqmem, ?_⟩
      exact decide_eq_true (le_of_lt hqlt)
    have hne : (stepEmitter maxP2 dt e1).particles ≠ [] := List.ne_nil_of_mem hmem2
    constructor
    · unfold IsSpawning
      rw [hlook2]
      refine spawning_false_of_stopping _ ?_
      rw [stepEmitter_mode, hmodeEq]
    · unfold IsSleeping
      rw [hlook2]
      show (stepEmitter maxP2 dt e1).sleeping = false
      simp [Emitter.sleeping, List.isEmpty_eq_false.mpr hne]

/-- Witness for C6 on the concrete stopped emitter of `wCtxStop` (one
particle, age 1, life 5). -/
theorem stopEmitter_no_respawn_witness :
    IsSpawning (applyUpdates (StopEmitter wCtxStop 1) [1] []) 1 = false ∧
    particleCount (applyUpdates (StopEmitter wCtxStop 1) ([] ++ [1]) []) 1 ≤
      particleCount (applyUpdates (StopEmitter wCtxStop 1) [] []) 1 ∧
    (IsSpawning (applyUpdates (StopEmitter wCtxStop 1) ([] ++ [2]) []) 1 = false ∧
     IsSleeping (applyUpdates (StopEmitter wCtxStop 1) ([] ++ [2]) []) 1 = false) := by
  obtain ⟨h1, h2, h3⟩ := stopEmitter_no_respawn wCtxStop 1 wEmP [] rfl rfl rfl
  refine ⟨h1 [1], h2 [] 1, ?_⟩
  refine h3 [] 2 { wEmP with mode := EmitterMode.Stopping } rfl ?_
  refine ⟨{ position := (0, 0, 0), velocity := (0, 0, 0), age := 1, life := 5 }, ?_, ?_⟩
  · show _ ∈ [({ position := (0, 0, 0), velocity := (0, 0, 0), age := 1, life := 5 } : Particle)]
    exact List.mem_singleton.mpr rfl
  · norm_num

theorem stepEmitter_fafInv (maxP : Nat) (dt : ℚ) (e : Emitter) (d : EmitterDDF)
    (hloop : d.looping = false) (hinv : fafInv d e) :
    fafInv d (stepEmitter maxP dt e) := by
  obtain ⟨hproto, hauto, hpart⟩ := hinv
  have hddfe : e.ddf = d := by rw [Emitter.ddf, hproto]; rfl
  refine ⟨by rw [stepEmitter_prototype]; exact hproto,
    by rw [stepEmitter_autoDestroy]; exact hauto, ?_⟩
  intro q hq
  obtain ⟨hfilter, q0, hqeq, hcase⟩ := mem_stepEmitter_particles maxP dt e q hq
  rcases hcase with hold | ⟨hspawn, hage, hlife⟩
  · obtain ⟨hl, hlt, _⟩ := hpart q0 hold
    subst hqeq
    refine ⟨hl, ?_, hfilter⟩
    show (stepEmitter maxP dt e).timer - (q0.age + dt) < d.duration
    rw [stepEmitter_timer]
    have harr : e.timer + dt - (q0.age + dt) = e.timer - q0.age := by ring
    rw [harr]
    exact hlt
  · have htlt : e.timer < d.duration := by
      by_contra hcon
      have hsf := spawning_false_of_elapsed e (by rw [hddfe]; exact hloop)
        (by rw [hddfe]; exact le_of_not_lt hcon)
      rw [hsf] at hspawn
      exact Bool.noConfusion hspawn
    subst hqeq
    refine ⟨?_, ?_, hfilter⟩
    · show q0.life = d.particleLife
      rw [hlife, hddfe]
    · show (stepEmitter maxP dt e).timer - (q0.age + dt) < d.duration
      rw [stepEmitter_timer, hage]
      have harr : e.timer + dt - (0 + dt) = e.timer := by ring
      rw [harr]
      exact htlt

theorem slotStep_reclaims (maxP : Nat) (dt : ℚ) (e : Emitter) (d : EmitterDDF)
    (hloop : d.looping = false) (hL : 0 ≤ d.particleLife)
    (hinv : fafInv d e) (hbound : d.duration + d.particleLife ≤ e.timer + dt) :
    slotStep maxP dt (some e) = none := by
  obtain ⟨hproto', hauto', hpart'⟩ := stepEmitter_fafInv maxP dt e d hloop hinv
  have hddfe' : (stepEmitter maxP dt e).ddf = d := by rw [Emitter.ddf, hproto']; rfl
  have htimer' : (stepEmitter maxP dt e).timer = e.timer + dt := stepEmitter_timer _ _ _
  have hspawn' : (stepEmitter maxP dt e).spawning = false := by
    refine spawning_false_of_elapsed _ (by rw [hddfe']; exact hloop) ?_
    rw [hddfe', htimer']
    linarith
  have hempty : (stepEmitter maxP dt e).particles = [] := by
    rw [List.eq_nil_iff_forall_not_mem]
    intro q hq
    obtain ⟨hl, hlt, hle⟩ := hpart' q hq
    rw [htimer'] at hlt
    rw [hl] at hle
    linarith
  have hsleep : (stepEmitter maxP dt e).sleeping = true := by
    simp [Emitter.sleeping, hspawn', hempty]
  simp [slotStep, reclaimSlot, hauto', hsleep]

theorem evolveSlot_faf_none (maxP : Nat) (d : EmitterDDF)
    (hloop : d.looping = false) (hL : 0 ≤ d.particleLife) :
    ∀ (dts : List ℚ) (e : Emitter), dts ≠ [] → fafInv d e →
      d.duration + d.particleLife ≤ e.timer + dts.sum →
      evolveSlot maxP dts (some e) = none := by
  intro dts
  induction dts with
  | nil => intro e hne; exact absurd rfl hne
  | cons dt rest ih =>
    intro e _ hinv hbound
    cases rest with
    | nil =>
      have hb : d.duration + d.particleLife ≤ e.timer + dt := by simpa using hbound
      show slotStep maxP dt (some e) = none
      exact slotStep_reclaims maxP dt e d hloop hL hinv hb
    | cons dt2 rest2 =>
      rw [evolveSlot_cons]
      cases hcase : slotStep maxP dt (some e) with
      | none => exact evolveSlot_none _ _
      | some e1 =>
        have he1 : e1 = stepEmitter maxP dt e := by
          simp only [slotStep, Option.map_some', reclaimSlot] at hcase
          split at hcase
          · exact Option.noConfusion hcase
          · exact (Option.some.inj hcase).symm
        subst he1
        refine ih (stepEmitter maxP dt e) (by simp)
          (stepEmitter_fafInv maxP dt e d hloop hinv) ?_
        rw [stepEmitter_timer]
        rw [List.sum_cons] at hbound
        linarith

/-- C3: a `FireAndForget` emitter from a finite-duration prototype is
reclaimed by the simulation step itself: after updates whose `dt` values sum
to at least duration + max particle life, the context's live-emitter count is
back at its pre-call value (the other live emitters, none auto-destroy, all
survive). -/
theorem fireAndForget_reclaimed (c : Context) (p : Prototype) (d : EmitterDDF)
    (position : Point3) (rotation : Quat) (view : Matrix4) (dts : List ℚ)
    (hddf : p.m_DDF = some d)
    (hloop : d.looping = false)
    (hL : 0 ≤ d.particleLife)
    (hauto : ∀ e, some e ∈ c.slots → e.autoDestroy = false)
    (hne : dts ≠ [])
    (hsum : d.duration + d.particleLife ≤ dts.sum) :
    liveCount (applyUpdates (FireAndForget c p position rotation) dts view) = liveCount c := by
  have hFA : FireAndForget c p position rotation =
      (createEmitterAuto c p position rotation true).1 := by
    simp [FireAndForget, hddf, hloop]
  cases hf : findFreeSlot c.slots with
  | none =>
    have hsame : FireAndForget c p position rotation = c := by
      rw [hFA]
      simp [createEmitterAuto, hddf, hf]
    rw [hsame, liveCount, applyUpdates_slots]
    refine countP_isSome_map_congr _ _ ?_
    intro s hs
    cases s with
    | none => rw [evolveSlot_none]
    | some e =>
      obtain ⟨e', hev, _, _, _, _, _⟩ := evolve_not_auto c.maxParticleCount dts e (hauto e hs)
      rw [hev]
      rfl
  | some i =>
    obtain ⟨hilt, hgetnone⟩ := findFreeSlot_spec _ _ hf
    set e0 : Emitter := newEmitter p position rotation true with he0
    have hCE : FireAndForget c p position rotation =
        { c with slots := c.slots.set i (some e0) } := by
      rw [hFA]
      simp [createEmitterAuto, hddf, hf, he0]
    rw [hCE]
    obtain ⟨l1, l2, hsplit, hlen⟩ := slots_split_of_getD_none c.slots i hilt hgetnone
    have hset : c.slots.set i (some e0) = l1 ++ some e0 :: l2 := by
      rw [hsplit, ← hlen, set_at_append_length]
    rw [liveCount, applyUpdates_slots]
    show ((c.slots.set i (some e0)).map (evolveSlot c.maxParticleCount dts)).countP
      Option.isSome = liveCount c
    rw [hset, List.map_append, List.map_cons, List.countP_append, List.countP_cons]
    have hmid : evolveSlot c.maxParticleCount dts (some e0) = none := by
      refine evolveSlot_faf_none c.maxParticleCount d hloop hL dts e0 hne ?_ ?_
      · exact ⟨hddf, rfl, by intro q hq; exact absurd hq (List.not_mem_nil q)⟩
      · show d.duration + d.particleLife ≤ e0.timer + dts.sum
        have h0 : e0.timer = 0 := rfl
        rw [h0, zero_add]
        exact hsum
    have hl1 : (l1.map (evolveSlot c.maxParticleCount dts)).countP Option.isSome =
        l1.countP Option.isSome := by
      refine countP_isSome_map_congr _ _ ?_
      intro s hs
      cases s with
      | none => rw [evolveSlot_none]
      | some e =>
        have hmem : some e ∈ c.slots := by
          rw [hsplit]
          exact List.mem_append_left _ hs
        obtain ⟨e', hev, _, _, _, _, _⟩ := evolve_not_auto c.maxParticleCount dts e (hauto e hmem)
        rw [hev]
        rfl
    have hl2 : (l2.map (evolveSlot c.maxParticleCount dts)).countP Option.isSome =
        l2.countP Option.isSome := by
      refine countP_isSome_map_congr _ _ ?_
      intro s hs
      cases s with
      | none => rw [evolveSlot_none]
      | some e =>
        have hmem : some e ∈ c.slots := by
          rw [hsplit]
          exact List.mem_append_right _ (List.mem_cons_of_mem _ hs)
        obtain ⟨e', hev, _, _, _, _, _⟩ := evolve_not_auto c.maxParticleCount dts e (hauto e hmem)
        rw [hev]
        rfl
    rw [hmid, hl1, hl2, liveCount, hsplit, List.countP_append, List.countP_cons]

/-- Witness for C3: a fire-and-forget emitter from `wProto` (duration 1,
particle life 1) in the empty context `wCtx0`, after three one-second
updates. -/
theorem fireAndForget_reclaimed_witness :
    liveCount (applyUpdates (FireAndForget wCtx0 wProto (0, 0, 0) (0, 0, 0, 1)) [1, 1, 1] []) =
      liveCount wCtx0 := by
  refine fireAndForget_reclaimed wCtx0 wProto wDDF (0, 0, 0) (0, 0, 0, 1) [] [1, 1, 1]
    rfl rfl (by norm_num [wDDF]) ?_ (by simp) ?_
  · intro e he
    simp [wCtx0, CreateContext, wConfig, List.mem_replicate] at he
  · norm_num [wDDF, List.sum_cons, List.sum_nil]

/-- C9 counterexample: `CreateEmitter` on a prototype with a missing (null)
emission descriptor returns `INVALID_EMITTER` even though the pool is not at
capacity — so capacity exhaustion is not the only failure cause detected by
the core (the header documents "INVALID_EMITTER when the resource is broken
or the context is full"). -/
theorem create_broken_resource_cex :
    (CreateEmitter wCtx0 Prototype.init).2 = INVALID_EMITTER ∧
    liveCount wCtx0 < wCtx0.slots.length := by decide

/-- C9 amended: `CreateEmitter` returns `INVALID_EMITTER` exactly when the
prototype's resource is broken (null descriptor) or the pool is at
capacity. -/
theorem createEmitter_failure_causes (c : Context) (p : Prototype) :
    (CreateEmitter c p).2 = INVALID_EMITTER ↔
      (p.m_DDF = none ∨ liveCount c = c.slots.length) := by
  cases hd : p.m_DDF with
  | none => simp [CreateEmitter, createEmitterAuto, hd, INVALID_EMITTER]
  | some d =>
    cases hf : findFreeSlot c.slots with
    | none =>
      have hall := (findFreeSlot_eq_none _).mp hf
      have hfull := (liveCount_eq_length c).mpr hall
      simp [CreateEmitter, createEmitterAuto, hd, hf, INVALID_EMITTER, hfull]
    | some i =>
      have hnfull : ¬ liveCount c = c.slots.length := by
        intro hcon
        have hall := (liveCount_eq_length c).mp hcon
        have hnone : findFreeSlot c.slots = none := (findFreeSlot_eq_none _).mpr hall
        rw [hnone] at hf
        exact Option.noConfusion hf
      simp [CreateEmitter, createEmitterAuto, hd, hf, INVALID_EMITTER, hnfull]

theorem countSetUp_renderGroup (ems : List Emitter) (m : Nat) :
    countSetUp (renderGroup ems m) = 1 := by
  simp only [countSetUp, renderGroup, List.countP_cons, List.countP_append]
  have h1 : ((ems.filter fun e => e.prototype.m_Material == m).map
      (fun e => RenderEvent.perEmitter e.prototype.m_Material e.prototype.m_Texture
        (4 * e.particles.length))).countP (· == RenderEvent.setUp) = 0 := by
    rw [List.countP_eq_zero]
    intro a ha
    rw [List.mem_map] at ha
    obtain ⟨e, _, hEq⟩ := ha
    rw [← hEq]
    simp
  rw [h1]
  rfl

theorem countTearDown_renderGroup (ems : List Emitter) (m : Nat) :
    countTearDown (renderGroup ems m) = 1 := by
  simp only [countTearDown, renderGroup, List.countP_cons, List.countP_append]
  have h1 : ((ems.filter fun e => e.prototype.m_Material == m).map
      (fun e => RenderEvent.perEmitter e.prototype.m_Material e.prototype.m_Texture
        (4 * e.particles.length))).countP (· == RenderEvent.tearDown) = 0 := by
    rw [List.countP_eq_zero]
    intro a ha
    rw [List.mem_map] at ha
    obtain ⟨e, _, hEq⟩ := ha
    rw [← hEq]
    simp
  rw [h1]
  rfl

theorem countSetUp_flatMap (ems : List Emitter) :
    ∀ ms : List Nat, countSetUp (ms.flatMap (renderGroup ems)) = ms.length := by
  intro ms
  induction ms with
  | nil => rfl
  | cons m ms ih =>
    rw [List.flatMap_cons]
    show ((renderGroup ems m) ++ ms.flatMap (renderGroup ems)).countP _ = ms.length + 1
    rw [List.countP_append]
    have h1 := countSetUp_renderGroup ems m
    have h2 := ih
    rw [countSetUp] at h1
    rw [countSetUp] at h2
    omega

theorem countTearDown_flatMap (ems : List Emitter) :
    ∀ ms : List Nat, countTearDown (ms.flatMap (renderGroup ems)) = ms.length := by
  intro ms
  induction ms with
  | nil => rfl
  | cons m ms ih =>
    rw [List.flatMap_cons]
    show ((renderGroup ems m) ++ ms.flatMap (renderGroup ems)).countP _ = ms.length + 1
    rw [List.countP_append]
    have h1 := countTearDown_renderGroup ems m
    have h2 := ih
    rw [countTearDown] at h1
    rw [countTearDown] at h2
    omega

theorem dedup_perm_two (l : List Nat) (a b : Nat) (hab : a ≠ b)
    (hperm : l.Perm [a, a, b]) : l.dedup.length = 2 := by
  have h1 : l.dedup.Perm ([a, a, b] : List Nat).dedup := hperm.dedup
  rw [h1.length_eq]
  rw [List.dedup_cons_of_mem (by simp : a ∈ [a, b])]
  rw [List.dedup_cons_of_not_mem (by simp [hab] : a ∉ [b])]
  rw [List.dedup_cons_of_not_mem (by simp : b ∉ [])]
  rfl

/-- C7: one `Render` call groups emitters by material: `setUp` and `tearDown`
are invoked once per distinct material group, with a group's `perEmitter`
calls forming one contiguous block between them; for two emitters sharing one
material and one emitter with a distinct material — in any pool order —
`setUp` and `tearDown` are each invoked exactly twice. -/
theorem render_groups_by_material (c : Context) (a b : Nat)
    (hab : a ≠ b)
    (hperm : (renderMaterials c).Perm [a, a, b]) :
    countSetUp (Render c) = 2 ∧ countTearDown (Render c) = 2 ∧
    ∀ m ∈ (renderMaterials c).dedup, ∃ l1 l2,
      Render c = l1 ++ renderGroup (renderableEmitters c) m ++ l2 := by
  have hlen : (renderMaterials c).dedup.length = 2 := dedup_perm_two _ a b hab hperm
  have hR : Render c =
      (renderMaterials c).dedup.flatMap (renderGroup (renderableEmitters c)) := rfl
  refine ⟨?_, ?_, ?_⟩
  · rw [hR, countSetUp_flatMap, hlen]
  · rw [hR, countTearDown_flatMap, hlen]
  · intro m hm
    obtain ⟨s, t, hst⟩ := List.append_of_mem hm
    refine ⟨s.flatMap (renderGroup (renderableEmitters c)),
      t.flatMap (renderGroup (renderableEmitters c)), ?_⟩
    rw [hR, hst, List.flatMap_append, List.flatMap_cons, List.append_assoc]

/-- Witness for C7 on the concrete three-emitter context `wCtxRender`
(materials 5, 3, 3). -/
theorem render_groups_by_material_witness :
    countSetUp (Render wCtxRender) = 2 ∧ countTearDown (Render wCtxRender) = 2 ∧
    ∀ m ∈ (renderMaterials wCtxRender).dedup, ∃ l1 l2,
      Render wCtxRender = l1 ++ renderGroup (renderableEmitters wCtxRender) m ++ l2 :=
  render_groups_by_material wCtxRender 3 5 (by decide) (by decide)

end dmParticle
